import Mathlib

/-!
# Verification of the Firetruck Puzzle interaction engine

Shallow embedding of `src/FiretruckPuzzleApp.jsx` (the responsive-board
revision, which is the current source of the repository).  JavaScript
numbers are modelled as rationals (`ℚ`): every arithmetic operation the
embedded code performs (+, -, *, /, min, squaring) is exact on the inputs
the claims consider, so `ℚ` is a faithful model of the double-precision
values at those inputs.  The one floating-point wrinkle is
`Math.hypot(dx,dy) < SNAP_RADIUS`: `hypot` is the nonnegative square root
of `dx²+dy²` and `SNAP_RADIUS` is nonnegative, so the comparison is
equivalent to `dx²+dy² < SNAP_RADIUS²`, which is how it is embedded here.

Cosmetic effects (element styles, confetti spans, timers) touch no piece
state and are omitted; the embedding covers the state the spec's claims
are about: the piece registry, the drag session ref, the completion flag
and the board size.
-/

namespace Firetruck

/-- `const BASE_SIZE = 1024` — the design coordinate system. -/
def BASE_SIZE : ℚ := 1024

/-- `const MAX_BOARD_PX = 600` — cap board on very large screens. -/
def MAX_BOARD_PX : ℚ := 600

/-- `const SNAP_RADIUS = 40` — snap tolerance in base units. -/
def SNAP_RADIUS : ℚ := 40

/-- A 2-D point, as the `{x, y}` objects of the source. -/
structure Point where
  x : ℚ
  y : ℚ
deriving DecidableEq

/-- A piece of the registry: `{ id, src, target, position, placed }` as
built by the manifest-loading effect. -/
structure Piece where
  id : String
  src : String
  target : Point
  position : Point
  placed : Bool
deriving DecidableEq

/-- The mutable drag state held in `dragRef.current`:
`{ id, offX, offY, lastX, lastY }`.  `lastX`/`lastY` are absent until the
first pointer-move of the gesture (`lastX ?? ...` in `onUp`), hence
`Option ℚ`.  The captured DOM element `el` is cosmetic and omitted. -/
structure DragSession where
  id : String
  offX : ℚ
  offY : ℚ
  lastX : Option ℚ
  lastY : Option ℚ
deriving DecidableEq

/-- The component state: `pieces` and `completed` are React state,
`drag` is `dragRef.current` (`none` = `null`), `boardPx` is the board
display size state. -/
structure AppState where
  pieces : List Piece
  completed : Bool
  drag : Option DragSession
  boardPx : ℚ
deriving DecidableEq

/-- `const scale = boardPx / BASE_SIZE`. -/
def scaleOf (s : AppState) : ℚ := s.boardPx / BASE_SIZE

/-- `calcBoardPx`: `Math.min(vw - 32, vh - 180, MAX_BOARD_PX)` (keep the
header visible on small screens). -/
def calcBoardPx (vw vh : ℚ) : ℚ :=
  min (min (vw - 32) (vh - 180)) MAX_BOARD_PX

/-- `toLocal`: maps pointer client coordinates into design space by
subtracting the board's bounding-rect origin and dividing by the scale. -/
def toLocal (clientX clientY rectLeft rectTop sc : ℚ) : Point :=
  ⟨(clientX - rectLeft) / sc, (clientY - rectTop) / sc⟩

/-- `tx`: the translate part of
`translate(${x*scale}px, ${y*scale}px) scale(...)` — design-space
coordinates back to screen pixels, multiplying by the scale. -/
def tx (x y sc : ℚ) : Point := ⟨x * sc, y * sc⟩

/-- `randomOnBoard`: a random position inside a 100-unit margin,
`Math.random() * (BASE_SIZE - 2*margin) + margin` per coordinate, where
`r1`, `r2` stand for the two `Math.random()` draws (each in `[0,1)`). -/
def randomOnBoard (r1 r2 : ℚ) : Point :=
  let margin : ℚ := 100
  ⟨r1 * (BASE_SIZE - 2 * margin) + margin,
   r2 * (BASE_SIZE - 2 * margin) + margin⟩

/-- `p.file.replace(/\.png$/i, "")`: strips a final `.png` extension,
case-insensitively. -/
def stripPngExt (file : String) : String :=
  if file.toLower.endsWith ".png" then file.dropRight 4 else file

/-- A manifest entry `{ file, target }` (external, read-only). -/
structure ManifestEntry where
  file : String
  target : Point

/-- The registry initialisation performed when the manifest arrives:
`data.map(p => ({ id: ..., src: ..., target: p.target,
position: randomOnBoard(), placed: false }))`.  The per-call
`Math.random()` pair is supplied by `rand`, indexed by the entry's
position in the manifest. -/
def initRegistry (data : List ManifestEntry) (rand : ℕ → ℚ × ℚ) : List Piece :=
  data.enum.map fun ip =>
    { id := stripPngExt ip.2.file
      src := "/assets/pieces/" ++ ip.2.file
      target := ip.2.target
      position := randomOnBoard (rand ip.1).1 (rand ip.1).2
      placed := false }

/-- The per-piece body of `onUp`'s `prev.map(...)` updater — the
registry's `applyDragResult` in the spec's vocabulary:
skip pieces that do not match the dragged id or are already placed; else
take the release position (falling back to the current position when no
move was processed), snap to the target when strictly within
`SNAP_RADIUS`, otherwise settle at the release position.
`Math.hypot(...) < SNAP_RADIUS` is embedded as the equivalent squared
comparison. -/
def onUpPiece (id : String) (lastX lastY : Option ℚ) (p : Piece) : Piece :=
  if p.id ≠ id ∨ p.placed = true then p
  else if (p.target.x - lastX.getD p.position.x) ^ 2
          + (p.target.y - lastY.getD p.position.y) ^ 2 < SNAP_RADIUS ^ 2 then
    { p with placed := true, position := p.target }
  else
    { p with position := ⟨lastX.getD p.position.x, lastY.getD p.position.y⟩ }

/-- The whole registry update of `onUp`: `prev.map(p => ...)`. -/
def onUpUpdate (id : String) (lastX lastY : Option ℚ) (ps : List Piece) : List Piece :=
  ps.map (onUpPiece id lastX lastY)

/-- `onDown`: ignore when completed; find the piece by id
(`pieces.findIndex(p => p.id === id)`), ignore when absent or placed;
else record a new drag session with the grab offset in design space.
The element styling is cosmetic and omitted.  Note the source does not
check whether a drag session already exists. -/
def onDown (s : AppState) (id : String) (clientX clientY rectLeft rectTop : ℚ) : AppState :=
  if s.completed = true then s
  else
    match s.pieces.find? (fun p => p.id == id) with
    | none => s
    | some p =>
      if p.placed = true then s
      else
        let pt := toLocal clientX clientY rectLeft rectTop (scaleOf s)
        { s with drag := some ⟨id, pt.x - p.position.x, pt.y - p.position.y, none, none⟩ }

/-- `onMove`: ignore without a session; else record the piece's new
design-space position in `lastX`/`lastY` (the element transform is
cosmetic and omitted). -/
def onMove (s : AppState) (clientX clientY rectLeft rectTop : ℚ) : AppState :=
  match s.drag with
  | none => s
  | some d =>
    let pt := toLocal clientX clientY rectLeft rectTop (scaleOf s)
    { s with drag := some { d with lastX := some (pt.x - d.offX), lastY := some (pt.y - d.offY) } }

/-- `onUp`: ignore without a session; else clear the session and apply
the registry update with the session's last observed position. -/
def onUp (s : AppState) : AppState :=
  match s.drag with
  | none => s
  | some d => { s with drag := none, pieces := onUpUpdate d.id d.lastX d.lastY s.pieces }

/-- The resize listener: `setBoardPx(calcBoardPx())`. -/
def onResize (s : AppState) (vw vh : ℚ) : AppState :=
  { s with boardPx := calcBoardPx vw vh }

/-- The completion effect:
`if (pieces.length && pieces.every(p => p.placed)) setCompleted(true)`.
(The delayed big-confetti call is cosmetic and omitted.) -/
def checkCompletion (s : AppState) : AppState :=
  if s.pieces ≠ [] ∧ s.pieces.all (fun p => p.placed) then
    { s with completed := true }
  else s

/-- The discrete input events the component reacts to. -/
inductive Event where
  | down (id : String) (clientX clientY rectLeft rectTop : ℚ)
  | move (clientX clientY rectLeft rectTop : ℚ)
  | up
  | resize (vw vh : ℚ)
deriving DecidableEq

/-- Dispatch of one input event to its handler. -/
def handle (s : AppState) (e : Event) : AppState :=
  match e with
  | .down id cx cy rl rt => onDown s id cx cy rl rt
  | .move cx cy rl rt => onMove s cx cy rl rt
  | .up => onUp s
  | .resize vw vh => onResize s vw vh

/-- One event-handling step.  React runs the completion effect after any
render in which `[pieces, scale]` changed; `checkCompletion` is applied
after every event here, which is observationally the same because the
effect is idempotent and its guard depends only on `pieces`, which the
remaining events leave untouched. -/
def step (s : AppState) (e : Event) : AppState :=
  checkCompletion (handle s e)

/-! ## Helper lemmas -/

/-- The completion effect touches only the `completed` flag. -/
theorem checkCompletion_pieces (s : AppState) : (checkCompletion s).pieces = s.pieces := by
  unfold checkCompletion; split <;> rfl

/-- The completion effect leaves the drag ref alone. -/
theorem checkCompletion_drag (s : AppState) : (checkCompletion s).drag = s.drag := by
  unfold checkCompletion; split <;> rfl

/-- The completion effect is the identity once the flag is set. -/
theorem checkCompletion_of_completed (s : AppState) (h : s.completed = true) :
    checkCompletion s = s := by
  cases s
  unfold checkCompletion
  split <;> simp_all

/-- `onUp`'s updater skips a piece that is already placed. -/
theorem onUpPiece_of_placed (id : String) (lastX lastY : Option ℚ) (p : Piece)
    (h : p.placed = true) : onUpPiece id lastX lastY p = p := by
  unfold onUpPiece
  rw [if_pos (Or.inr h)]

/-- `onUp`'s updater preserves "a placed piece sits on its target":
the snap branch is the only place `placed` is set, and it also sets the
position to the target. -/
theorem onUpPiece_target_inv (id : String) (lastX lastY : Option ℚ) (p : Piece)
    (h : p.placed = true → p.position = p.target) :
    (onUpPiece id lastX lastY p).placed = true →
      (onUpPiece id lastX lastY p).position = (onUpPiece id lastX lastY p).target := by
  unfold onUpPiece
  by_cases hskip : p.id ≠ id ∨ p.placed = true
  · rw [if_pos hskip]
    exact h
  · rw [if_neg hskip]
    push_neg at hskip
    by_cases hsnap : (p.target.x - lastX.getD p.position.x) ^ 2
        + (p.target.y - lastY.getD p.position.y) ^ 2 < SNAP_RADIUS ^ 2
    · rw [if_pos hsnap]
      intro _
      rfl
    · rw [if_neg hsnap]
      intro hpl
      exact absurd hpl hskip.2

/-- No event handler touches the `completed` flag; only the completion
effect does. -/
theorem handle_completed (s : AppState) (e : Event) :
    (handle s e).completed = s.completed := by
  cases e with
  | down id cx cy rl rt =>
    show (onDown s id cx cy rl rt).completed = s.completed
    unfold onDown
    split
    · rfl
    · split
      · rfl
      · split <;> rfl
  | move cx cy rl rt =>
    show (onMove s cx cy rl rt).completed = s.completed
    unfold onMove
    split <;> rfl
  | up =>
    show (onUp s).completed = s.completed
    unfold onUp
    split <;> rfl
  | resize vw vh => rfl

/-- A step either leaves the registry untouched or applies `onUp`'s
registry update for some session data. -/
theorem step_pieces_cases (s : AppState) (e : Event) :
    (step s e).pieces = s.pieces ∨
      ∃ id lastX lastY, (step s e).pieces = onUpUpdate id lastX lastY s.pieces := by
  unfold step
  rw [checkCompletion_pieces]
  cases e with
  | down id cx cy rl rt =>
    left
    show (onDown s id cx cy rl rt).pieces = s.pieces
    unfold onDown
    split
    · rfl
    · split
      · rfl
      · split <;> rfl
  | move cx cy rl rt =>
    left
    show (onMove s cx cy rl rt).pieces = s.pieces
    unfold onMove
    split <;> rfl
  | up =>
    rcases hd : s.drag with _ | d
    · left
      show (onUp s).pieces = s.pieces
      unfold onUp
      rw [hd]
    · right
      refine ⟨d.id, d.lastX, d.lastY, ?_⟩
      show (onUp s).pieces = _
      unfold onUp
      rw [hd]
  | resize vw vh => exact Or.inl rfl

/-- The completion effect raises the flag exactly when the registry is
nonempty with every piece placed, and otherwise leaves it as it was. -/
theorem checkCompletion_completed_iff (s : AppState) :
    ((checkCompletion s).completed = true ↔
      (s.completed = true ∨ (s.pieces ≠ [] ∧ ∀ p ∈ s.pieces, p.placed = true))) := by
  unfold checkCompletion
  split
  · next h =>
    simp only [List.all_eq_true] at h
    exact ⟨fun _ => Or.inr h, fun _ => rfl⟩
  · next h =>
    rw [not_and_or] at h
    constructor
    · exact Or.inl
    · rintro (hc | ⟨hne, hall⟩)
      · exact hc
      · rcases h with h | h
        · exact absurd hne h
        · exact absurd (List.all_eq_true.mpr fun p hp => hall p hp) h

/-! ## C1 — snap decision at pointer-up -/

/-- C1: at pointer-up, for the piece matching the dragged id that is not
yet placed, a release strictly within `SNAP_RADIUS` of the target (the
`Math.hypot` comparison, stated here as the equivalent squared-distance
comparison) places the piece exactly at its target with `placed = true`;
any other release leaves `placed = false` and moves the piece to the
release position. -/
theorem onUpUpdate_snap_decision (ps : List Piece) (p : Piece) (hmem : p ∈ ps)
    (id : String) (x y : ℚ) (hid : p.id = id) (hpl : p.placed = false) :
    ((p.target.x - x) ^ 2 + (p.target.y - y) ^ 2 < SNAP_RADIUS ^ 2 →
      { p with placed := true, position := p.target } ∈ onUpUpdate id (some x) (some y) ps) ∧
    (¬ ((p.target.x - x) ^ 2 + (p.target.y - y) ^ 2 < SNAP_RADIUS ^ 2) →
      { p with placed := false, position := ⟨x, y⟩ } ∈ onUpUpdate id (some x) (some y) ps) := by
  subst hid
  constructor
  · intro hlt
    refine List.mem_map.mpr ⟨p, hmem, ?_⟩
    unfold onUpPiece
    rw [if_neg (by simp [hpl]), if_pos (by simpa using hlt)]
  · intro hge
    refine List.mem_map.mpr ⟨p, hmem, ?_⟩
    unfold onUpPiece
    rw [if_neg (by simp [hpl]), if_neg (by simpa using hge)]
    cases p
    simp_all

/-- Witness for C1 at the spec's scenario: a `wheel` piece with target
`(500, 800)` snaps when released at `(505, 805)` and settles unplaced
when released at `(600, 900)`. -/
theorem onUpUpdate_snap_decision_witness :
    (Piece.mk "wheel" "w" ⟨500, 800⟩ ⟨500, 800⟩ true ∈
      onUpUpdate "wheel" (some 505) (some 805)
        [Piece.mk "wheel" "w" ⟨500, 800⟩ ⟨300, 300⟩ false]) ∧
    (Piece.mk "wheel" "w" ⟨500, 800⟩ ⟨600, 900⟩ false ∈
      onUpUpdate "wheel" (some 600) (some 900)
        [Piece.mk "wheel" "w" ⟨500, 800⟩ ⟨300, 300⟩ false]) := by
  constructor
  · exact (onUpUpdate_snap_decision [Piece.mk "wheel" "w" ⟨500, 800⟩ ⟨300, 300⟩ false]
      (Piece.mk "wheel" "w" ⟨500, 800⟩ ⟨300, 300⟩ false) (by decide)
      "wheel" 505 805 rfl rfl).1 (by norm_num [SNAP_RADIUS])
  · exact (onUpUpdate_snap_decision [Piece.mk "wheel" "w" ⟨500, 800⟩ ⟨300, 300⟩ false]
      (Piece.mk "wheel" "w" ⟨500, 800⟩ ⟨300, 300⟩ false) (by decide)
      "wheel" 600 900 rfl rfl).2 (by norm_num [SNAP_RADIUS])

/-! ## C3 — stale drag session is a no-op -/

/-- C3: when the drag session's id refers to a piece that is already
placed, or to no piece at all, the pointer-up registry update returns
the registry unchanged (the update is total, so no error can arise).
The hypothesis `∀ p ∈ pieces, p.id = d.id → p.placed` covers both the
already-placed and the not-found case. -/
theorem onUp_stale_noop (s : AppState) (d : DragSession) (hd : s.drag = some d)
    (h : ∀ p ∈ s.pieces, p.id = d.id → p.placed = true) :
    (step s Event.up).pieces = s.pieces := by
  unfold step
  rw [checkCompletion_pieces]
  show (onUp s).pieces = s.pieces
  unfold onUp
  rw [hd]
  show onUpUpdate d.id d.lastX d.lastY s.pieces = s.pieces
  unfold onUpUpdate
  have hcongr : ∀ p ∈ s.pieces, onUpPiece d.id d.lastX d.lastY p = p := by
    intro p hp
    by_cases hid : p.id = d.id
    · exact onUpPiece_of_placed _ _ _ _ (h p hp hid)
    · unfold onUpPiece
      rw [if_pos (Or.inl hid)]
  rw [List.map_congr_left hcongr]
  simp

/-- Witness for C3: a registry whose only piece (the dragged one) is
already placed survives pointer-up unchanged. -/
theorem onUp_stale_noop_witness :
    (step (AppState.mk [Piece.mk "a" "s" ⟨10, 10⟩ ⟨10, 10⟩ true] false
        (some (DragSession.mk "a" 0 0 none none)) 600) Event.up).pieces =
      [Piece.mk "a" "s" ⟨10, 10⟩ ⟨10, 10⟩ true] :=
  onUp_stale_noop _ (DragSession.mk "a" 0 0 none none) rfl (by decide)

/-! ## C4 — coordinate round-trip -/

/-- C4: converting a pointer position to design space (`toLocal`:
subtract the board origin, divide by scale) and back to screen pixels
(`tx`: multiply by scale) reproduces the original position — exactly,
over `ℚ`, hence in particular within floating-point tolerance — for any
scale in `(0, 1]`. -/
theorem toLocal_tx_roundTrip (clientX clientY rectLeft rectTop sc : ℚ)
    (h0 : 0 < sc) (h1 : sc ≤ 1) :
    (tx (toLocal clientX clientY rectLeft rectTop sc).x
        (toLocal clientX clientY rectLeft rectTop sc).y sc).x + rectLeft = clientX ∧
    (tx (toLocal clientX clientY rectLeft rectTop sc).x
        (toLocal clientX clientY rectLeft rectTop sc).y sc).y + rectTop = clientY := by
  unfold toLocal tx
  have hne : sc ≠ 0 := ne_of_gt h0
  constructor <;> (simp only []; field_simp)

/-- Witness for C4 at scale `1/2`, pointer `(10, 20)`, origin `(3, 4)`. -/
theorem toLocal_tx_roundTrip_witness :
    (tx (toLocal 10 20 3 4 (1/2)).x (toLocal 10 20 3 4 (1/2)).y (1/2)).x + 3 = 10 ∧
    (tx (toLocal 10 20 3 4 (1/2)).x (toLocal 10 20 3 4 (1/2)).y (1/2)).y + 4 = 20 :=
  toLocal_tx_roundTrip 10 20 3 4 (1/2) (by norm_num) (by norm_num)

/-! ## C5 — initial positions are on-board -/

/-- A single `randomOnBoard` draw with both randoms in `[0, 1)` lands in
the margin box `[100, 924] × [100, 924]`. -/
theorem randomOnBoard_inbounds (r1 r2 : ℚ) (h1 : 0 ≤ r1) (h2 : r1 < 1)
    (h3 : 0 ≤ r2) (h4 : r2 < 1) :
    100 ≤ (randomOnBoard r1 r2).x ∧ (randomOnBoard r1 r2).x ≤ 924 ∧
    100 ≤ (randomOnBoard r1 r2).y ∧ (randomOnBoard r1 r2).y ≤ 924 := by
  refine ⟨?_, ?_, ?_, ?_⟩
  · show (100 : ℚ) ≤ r1 * (BASE_SIZE - 2 * 100) + 100
    unfold BASE_SIZE
    nlinarith
  · show r1 * (BASE_SIZE - 2 * 100) + 100 ≤ 924
    unfold BASE_SIZE
    nlinarith
  · show (100 : ℚ) ≤ r2 * (BASE_SIZE - 2 * 100) + 100
    unfold BASE_SIZE
    nlinarith
  · show r2 * (BASE_SIZE - 2 * 100) + 100 ≤ 924
    unfold BASE_SIZE
    nlinarith

/-- C5: with every `Math.random()` draw in `[0, 1)`, every piece the
registry initialisation produces has both coordinates in `[100, 924]`
(in fact in `[100, 924)`), strictly inside the `1024`-unit design
space. -/
theorem initRegistry_inbounds (data : List ManifestEntry) (rand : ℕ → ℚ × ℚ)
    (h : ∀ i, 0 ≤ (rand i).1 ∧ (rand i).1 < 1 ∧ 0 ≤ (rand i).2 ∧ (rand i).2 < 1) :
    ∀ p ∈ initRegistry data rand,
      100 ≤ p.position.x ∧ p.position.x ≤ 924 ∧
      100 ≤ p.position.y ∧ p.position.y ≤ 924 := by
  intro p hp
  unfold initRegistry at hp
  obtain ⟨ip, _, rfl⟩ := List.mem_map.mp hp
  obtain ⟨h1, h2, h3, h4⟩ := h ip.1
  exact randomOnBoard_inbounds _ _ h1 h2 h3 h4

/-- Witness for C5 on the spec's one-entry manifest with both random
draws fixed to `1/2`: the spawned piece (at `(512, 512)`) lies inside
the margin box. -/
theorem initRegistry_inbounds_witness :
    100 ≤ (randomOnBoard (1/2) (1/2)).x ∧ (randomOnBoard (1/2) (1/2)).x ≤ 924 ∧
    100 ≤ (randomOnBoard (1/2) (1/2)).y ∧ (randomOnBoard (1/2) (1/2)).y ≤ 924 :=
  initRegistry_inbounds [ManifestEntry.mk "wheel.png" ⟨500, 800⟩] (fun _ => (1/2, 1/2))
    (fun _ => by norm_num)
    (Piece.mk (stripPngExt "wheel.png") ("/assets/pieces/" ++ "wheel.png") ⟨500, 800⟩
      (randomOnBoard (1/2) (1/2)) false)
    (List.mem_singleton.mpr rfl)

/-! ## C8 — board size clamping -/

/-- C8 (amended): `calcBoardPx` never exceeds the configured maximum
`MAX_BOARD_PX = 600` and never overflows the viewport (it stays within
`vw - 32` and `vh - 180`); the code has no lower clamp, so on degenerate
viewports the result — and hence the scale — can be zero or negative. -/
theorem calcBoardPx_upperBounds (vw vh : ℚ) :
    calcBoardPx vw vh ≤ MAX_BOARD_PX ∧
    calcBoardPx vw vh ≤ vw - 32 ∧ calcBoardPx vw vh ≤ vh - 180 := by
  unfold calcBoardPx
  exact ⟨min_le_right _ _, le_trans (min_le_left _ _) (min_le_left _ _),
    le_trans (min_le_left _ _) (min_le_right _ _)⟩

/-- Counterexample to C8 as stated: at viewport `0 × 0` the board size
is `-180`, not clamped to any usable floor, and the derived scale
`boardPx / BASE_SIZE` is negative. -/
theorem calcBoardPx_degenerate_negative :
    calcBoardPx 0 0 = -180 ∧ calcBoardPx 0 0 / BASE_SIZE < 0 := by
  norm_num [calcBoardPx, MAX_BOARD_PX, BASE_SIZE, min_def]

/-! ## C2 — placed pieces are frozen -/

/-- C2: no event (pointer-down, pointer-move, pointer-up, resize — each
followed by the completion check) ever changes a piece whose `placed`
flag is true, so `placed` never reverts; and the invariant "every placed
piece sits exactly on its target" is preserved by every step, so once
placed a piece's position stays equal to its target forever. -/
theorem step_placed_frozen (s : AppState) (e : Event)
    (hInv : ∀ p ∈ s.pieces, p.placed = true → p.position = p.target) :
    List.Forall₂ (fun p q => p.placed = true → q = p) s.pieces (step s e).pieces ∧
    ∀ q ∈ (step s e).pieces, q.placed = true → q.position = q.target := by
  rcases step_pieces_cases s e with hEq | ⟨id, lastX, lastY, hEq⟩
  · rw [hEq]
    exact ⟨List.forall₂_same.mpr (fun p _ _ => rfl), hInv⟩
  · rw [hEq]
    constructor
    · unfold onUpUpdate
      rw [List.forall₂_map_right_iff]
      exact List.forall₂_same.mpr (fun p _ hpl => onUpPiece_of_placed _ _ _ _ hpl)
    · intro q hq
      obtain ⟨p, hp, rfl⟩ := List.mem_map.mp hq
      exact onUpPiece_target_inv id lastX lastY p (hInv p hp)

/-- Witness for C2: a placed piece survives a pointer-up on a stale
session for it, and the placed-on-target invariant carries over. -/
theorem step_placed_frozen_witness :
    List.Forall₂ (fun p q => p.placed = true → q = p)
      [Piece.mk "a" "s" ⟨10, 10⟩ ⟨10, 10⟩ true, Piece.mk "b" "t" ⟨20, 20⟩ ⟨5, 5⟩ false]
      (step (AppState.mk
        [Piece.mk "a" "s" ⟨10, 10⟩ ⟨10, 10⟩ true, Piece.mk "b" "t" ⟨20, 20⟩ ⟨5, 5⟩ false]
        false (some (DragSession.mk "a" 0 0 none none)) 600) Event.up).pieces ∧
    ∀ q ∈ (step (AppState.mk
        [Piece.mk "a" "s" ⟨10, 10⟩ ⟨10, 10⟩ true, Piece.mk "b" "t" ⟨20, 20⟩ ⟨5, 5⟩ false]
        false (some (DragSession.mk "a" 0 0 none none)) 600) Event.up).pieces,
      q.placed = true → q.position = q.target :=
  step_placed_frozen
    (AppState.mk
      [Piece.mk "a" "s" ⟨10, 10⟩ ⟨10, 10⟩ true, Piece.mk "b" "t" ⟨20, 20⟩ ⟨5, 5⟩ false]
      false (some (DragSession.mk "a" 0 0 none none)) 600)
    Event.up (by decide)

/-! ## C6 — completion flag -/

/-- C6 (amended): after any step, the completion flag is raised exactly
when it was already raised or the registry is nonempty with every piece
placed; in particular it is monotone (never reverts).  The amendment
adds the nonemptiness condition that the code's
`pieces.length && pieces.every(...)` guard imposes. -/
theorem step_completed_iff (s : AppState) (e : Event) :
    (((step s e).completed = true ↔
        (s.completed = true ∨
          ((step s e).pieces ≠ [] ∧ ∀ p ∈ (step s e).pieces, p.placed = true))) ∧
      (s.completed = true → (step s e).completed = true)) := by
  have hiff : (step s e).completed = true ↔
      (s.completed = true ∨
        ((step s e).pieces ≠ [] ∧ ∀ p ∈ (step s e).pieces, p.placed = true)) := by
    unfold step
    rw [checkCompletion_completed_iff, handle_completed, checkCompletion_pieces]
  exact ⟨hiff, fun hc => hiff.mpr (Or.inl hc)⟩

/-- Witness for C6's amended statement: a one-piece registry whose piece
is placed raises the flag at the next step, and a raised flag persists. -/
theorem step_completed_iff_witness :
    (((step (AppState.mk [Piece.mk "a" "s" ⟨10, 10⟩ ⟨10, 10⟩ true] false none 600)
          Event.up).completed = true ↔
        ((AppState.mk [Piece.mk "a" "s" ⟨10, 10⟩ ⟨10, 10⟩ true] false none 600).completed = true ∨
          ((step (AppState.mk [Piece.mk "a" "s" ⟨10, 10⟩ ⟨10, 10⟩ true] false none 600)
              Event.up).pieces ≠ [] ∧
            ∀ p ∈ (step (AppState.mk [Piece.mk "a" "s" ⟨10, 10⟩ ⟨10, 10⟩ true] false none 600)
              Event.up).pieces, p.placed = true))) ∧
      ((AppState.mk [Piece.mk "a" "s" ⟨10, 10⟩ ⟨10, 10⟩ true] false none 600).completed = true →
        (step (AppState.mk [Piece.mk "a" "s" ⟨10, 10⟩ ⟨10, 10⟩ true] false none 600)
          Event.up).completed = true)) :=
  step_completed_iff (AppState.mk [Piece.mk "a" "s" ⟨10, 10⟩ ⟨10, 10⟩ true] false none 600)
    Event.up

/-- Counterexample to C6 as stated: in the empty registry (before the
manifest arrives) the set of placed pieces equals the full piece set —
both are empty — yet the completion flag stays false after the
completion check runs. -/
theorem step_completed_empty_counterexample :
    (step (AppState.mk [] false none 600) Event.up).pieces.filter (fun p => p.placed) =
      (step (AppState.mk [] false none 600) Event.up).pieces ∧
    (step (AppState.mk [] false none 600) Event.up).completed = false := by
  decide

/-! ## C7 — pointer-down is a no-op once completed -/

/-- C7: once the completion flag is true, a pointer-down on any piece
leaves the whole state unchanged: no drag session is created and no
piece changes. -/
theorem step_down_completed_noop (s : AppState) (id : String) (cx cy rl rt : ℚ)
    (h : s.completed = true) :
    step s (Event.down id cx cy rl rt) = s := by
  show checkCompletion (onDown s id cx cy rl rt) = s
  unfold onDown
  rw [if_pos h]
  exact checkCompletion_of_completed s h

/-- Witness for C7: with the flag raised, a pointer-down on the placed
piece changes nothing. -/
theorem step_down_completed_noop_witness :
    step (AppState.mk [Piece.mk "a" "s" ⟨10, 10⟩ ⟨10, 10⟩ true] true none 600)
        (Event.down "a" 7 7 0 0) =
      AppState.mk [Piece.mk "a" "s" ⟨10, 10⟩ ⟨10, 10⟩ true] true none 600 :=
  step_down_completed_noop _ "a" 7 7 0 0 rfl

/-! ## C9 — second pointer-down and the drag session -/

/-- C9 (amended): at most one drag session exists at any time — the
controller holds a single optional session — but `onDown` does not check
for an active session: a pointer-down on an unplaced piece while a
session is active *replaces* the session with a fresh one for that
piece (new pieceId, new offset, no observed position), so the first
session's pieceId and offset do not remain in effect. -/
theorem step_down_replaces_session (s : AppState) (id : String) (cx cy rl rt : ℚ)
    (p : Piece) (hc : s.completed = false)
    (hf : s.pieces.find? (fun q => q.id == id) = some p) (hpl : p.placed = false) :
    (step s (Event.down id cx cy rl rt)).drag =
      some (DragSession.mk id ((cx - rl) / scaleOf s - p.position.x)
        ((cy - rt) / scaleOf s - p.position.y) none none) := by
  show (checkCompletion (onDown s id cx cy rl rt)).drag = _
  rw [checkCompletion_drag]
  unfold onDown
  rw [if_neg (by simp [hc]), hf]
  dsimp only
  rw [if_neg (by simp [hpl])]
  rfl

/-- Witness for C9's amended statement: with a session for piece `a`
active, a pointer-down on unplaced piece `b` installs a session for `b`. -/
theorem step_down_replaces_session_witness :
    (step (AppState.mk
        [Piece.mk "a" "u" ⟨0, 0⟩ ⟨100, 100⟩ false, Piece.mk "b" "v" ⟨0, 0⟩ ⟨300, 300⟩ false]
        false (some (DragSession.mk "a" 1 2 none none)) 512)
      (Event.down "b" 160 160 0 0)).drag =
      some (DragSession.mk "b"
        ((160 - 0) / scaleOf (AppState.mk
          [Piece.mk "a" "u" ⟨0, 0⟩ ⟨100, 100⟩ false, Piece.mk "b" "v" ⟨0, 0⟩ ⟨300, 300⟩ false]
          false (some (DragSession.mk "a" 1 2 none none)) 512) - 300)
        ((160 - 0) / scaleOf (AppState.mk
          [Piece.mk "a" "u" ⟨0, 0⟩ ⟨100, 100⟩ false, Piece.mk "b" "v" ⟨0, 0⟩ ⟨300, 300⟩ false]
          false (some (DragSession.mk "a" 1 2 none none)) 512) - 300)
        none none) :=
  step_down_replaces_session _ "b" 160 160 0 0 (Piece.mk "b" "v" ⟨0, 0⟩ ⟨300, 300⟩ false)
    rfl (by decide) rfl

/-- Counterexample to C9 as stated: the same scenario, in numbers.  The
active session records pieceId `a`; after the second pointer-down the
controller's session is for `b` with a fresh offset — the first
session's pieceId and offset are no longer in effect. -/
theorem step_down_second_pointer_counterexample :
    (AppState.mk
        [Piece.mk "a" "u" ⟨0, 0⟩ ⟨100, 100⟩ false, Piece.mk "b" "v" ⟨0, 0⟩ ⟨300, 300⟩ false]
        false (some (DragSession.mk "a" 1 2 none none)) 512).drag =
      some (DragSession.mk "a" 1 2 none none) ∧
    (step (AppState.mk
        [Piece.mk "a" "u" ⟨0, 0⟩ ⟨100, 100⟩ false, Piece.mk "b" "v" ⟨0, 0⟩ ⟨300, 300⟩ false]
        false (some (DragSession.mk "a" 1 2 none none)) 512)
      (Event.down "b" 160 160 0 0)).drag =
      some (DragSession.mk "b" 20 20 none none) := by
  refine ⟨rfl, ?_⟩
  show (checkCompletion (onDown _ "b" 160 160 0 0)).drag = _
  rw [checkCompletion_drag]
  unfold onDown
  rw [if_neg (by decide),
    show List.find? (fun q => q.id == "b")
        [Piece.mk "a" "u" ⟨0, 0⟩ ⟨100, 100⟩ false, Piece.mk "b" "v" ⟨0, 0⟩ ⟨300, 300⟩ false] =
      some (Piece.mk "b" "v" ⟨0, 0⟩ ⟨300, 300⟩ false) from by decide]
  dsimp only
  rw [if_neg (by decide)]
  simp only [toLocal, scaleOf, BASE_SIZE, Option.some.injEq, DragSession.mk.injEq]
  norm_num

/-! ## C10 — pointer-up without any pointer-move -/

/-- C10: when a session ends with no pointer-move processed (`lastX` and
`lastY` still absent), the release position falls back to the piece's
current position: an unplaced dragged piece already strictly within
`SNAP_RADIUS` of its target snaps to the target with `placed = true`,
and otherwise the piece is left completely unchanged. -/
theorem step_up_noMove (s : AppState) (d : DragSession) (hd : s.drag = some d)
    (hlx : d.lastX = none) (hly : d.lastY = none)
    (p : Piece) (hmem : p ∈ s.pieces) (hid : p.id = d.id) (hpl : p.placed = false) :
    (((p.target.x - p.position.x) ^ 2 + (p.target.y - p.position.y) ^ 2 < SNAP_RADIUS ^ 2 →
        { p with placed := true, position := p.target } ∈ (step s Event.up).pieces) ∧
      (¬ ((p.target.x - p.position.x) ^ 2 + (p.target.y - p.position.y) ^ 2 < SNAP_RADIUS ^ 2) →
        p ∈ (step s Event.up).pieces)) := by
  have hpieces : (step s Event.up).pieces = onUpUpdate d.id d.lastX d.lastY s.pieces := by
    show (checkCompletion (onUp s)).pieces = _
    rw [checkCompletion_pieces]
    unfold onUp
    rw [hd]
  rw [hpieces, hlx, hly]
  constructor
  · intro hlt
    refine List.mem_map.mpr ⟨p, hmem, ?_⟩
    unfold onUpPiece
    rw [if_neg (by simp [hid, hpl]), if_pos (by simpa using hlt)]
  · intro hge
    refine List.mem_map.mpr ⟨p, hmem, ?_⟩
    unfold onUpPiece
    rw [if_neg (by simp [hid, hpl]), if_neg (by simpa using hge)]
    cases p with
    | mk pid psrc ptarget ppos ppl =>
      cases ppos
      rfl

/-- Witness for C10: a stationary click-and-release on an unplaced piece
at `(505, 805)` with target `(500, 800)` — no move event — snaps it to
the target. -/
theorem step_up_noMove_witness :
    Piece.mk "a" "s" ⟨500, 800⟩ ⟨500, 800⟩ true ∈
      (step (AppState.mk [Piece.mk "a" "s" ⟨500, 800⟩ ⟨505, 805⟩ false]
        false (some (DragSession.mk "a" 0 0 none none)) 600) Event.up).pieces :=
  (step_up_noMove _ (DragSession.mk "a" 0 0 none none) rfl rfl rfl
    (Piece.mk "a" "s" ⟨500, 800⟩ ⟨505, 805⟩ false) (by decide) rfl rfl).1
    (by norm_num [SNAP_RADIUS])

end Firetruck
